import Mathlib

/-!
Verification of the liveness-tracking and autorun-orchestration subsystem:
`services/firebase_watcher.py`, `services/account_sync.py` and
`services/autorun_controller.py`, shallowly embedded in Lean.

Python dictionaries are modelled as insertion-ordered association lists
(`dlookup` / `dinsert`), timestamps as `Int`, and the remote Firebase
snapshot as a list of `(rawKey, Option RobloxData)` pairs in iteration
order.  Exceptions thrown by injected callbacks are modelled with
`Except`.
-/

namespace Autorun

/-- First-match lookup in an association list (Python `dict.get`). -/
def dlookup {β : Type} : List (String × β) → String → Option β
  | [], _ => none
  | (k', v') :: rest, k => if k' = k then some v' else dlookup rest k

/-- Insertion into an association list with Python-dict semantics:
overwrite in place on an existing key, append at the end otherwise. -/
def dinsert {β : Type} : List (String × β) → String → β → List (String × β)
  | [], k, v => [(k, v)]
  | (k', v') :: rest, k, v =>
    if k' = k then (k, v) :: rest else (k', v') :: dinsert rest k v

/-- Python `str.lower()`, character by character. -/
def str_lower (s : String) : String := String.mk (s.data.map Char.toLower)

/-- Python `str.strip()`: drop leading and trailing whitespace. -/
def str_trim (s : String) : String :=
  String.mk (((s.data.dropWhile Char.isWhitespace).reverse.dropWhile
    Char.isWhitespace).reverse)

/-- Embedding of `_normalize_username` (identical in all three modules):
`username.lower().strip() if username else ""`. -/
def normalize_username (username : String) : String :=
  if username = "" then "" else str_trim (str_lower username)

/-- The `roblox` sub-object of a remote account record.  Fields use
`Option` to model keys that may be absent; `dict.get` defaults are
applied at the use sites, mirroring the Python. -/
structure RobloxData where
  inGame : Option Bool
  status : Option String
  timestamp : Option Int
deriving Repr, DecidableEq

/-- The constant `FirebaseWatcher.HEARTBEAT_TIMEOUT` (seconds). -/
def HEARTBEAT_TIMEOUT : Int := 120

/-- Embedding of `FirebaseWatcher._is_account_online`.  Here `none` covers an absent or
empty account record as well as an absent or empty `roblox` sub-object
(both make the Python return `False` before reading any field).
`not last_heartbeat` in Python is integer falsiness, i.e. the test
`last_heartbeat == 0` after the `.get("timestamp", 0)` default. -/
def is_account_online (now : Int) (account_data : Option RobloxData) : Bool :=
  match account_data with
  | none => false
  | some roblox_data =>
    let is_in_game := roblox_data.inGame.getD false
    let status := str_lower (roblox_data.status.getD "")
    if !is_in_game && status != "online" then false
    else
      let last_heartbeat := roblox_data.timestamp.getD 0
      if last_heartbeat == 0 then false
      else decide (now - last_heartbeat ≤ HEARTBEAT_TIMEOUT)

/-- The liveness classification as claim C2 words it: the record exists,
the in-game flag is true or the status string equals `"online"`, and the
heartbeat timestamp is present and no older than 120 seconds. -/
def spec_claimed_online (now : Int) (account_data : Option RobloxData) : Bool :=
  match account_data with
  | none => false
  | some r =>
    (r.inGame.getD false || (r.status.getD "") == "online") &&
    (match r.timestamp with
     | none => false
     | some t => decide (now - t ≤ HEARTBEAT_TIMEOUT))

/-- The constant `AutorunController.RUN_COOLDOWN` (seconds). -/
def RUN_COOLDOWN : Int := 60

/-- The mutable state of `AutorunController` relevant to admission:
`_running` (a set, modelled as a duplicate-free list) and `_last_run`
(username → timestamp of last completed run). -/
structure ControllerState where
  running : List String
  last_run : List (String × Int)
deriving Repr, DecidableEq

/-- Embedding of `AutorunController._can_run_account`. -/
def can_run_account (st : ControllerState) (username : String) (now : Int) : Bool :=
  let normalized := normalize_username username
  if st.running.contains normalized then false
  else
    let last_run := (dlookup st.last_run normalized).getD 0
    if now - last_run < RUN_COOLDOWN then false
    else true

/-- Embedding of `AutorunController._mark_running` (`set.add`). -/
def mark_running (st : ControllerState) (username : String) : ControllerState :=
  let normalized := normalize_username username
  { st with running :=
      if st.running.contains normalized then st.running
      else st.running ++ [normalized] }

/-- Embedding of `AutorunController._mark_finished` (`set.discard` then stamp
`_last_run` with the current time). -/
def mark_finished (st : ControllerState) (username : String) (now : Int) : ControllerState :=
  let normalized := normalize_username username
  { running := st.running.filter (fun x => x != normalized),
    last_run := dinsert st.last_run normalized now }

/-- The callbacks `FirebaseWatcher._check_and_notify` can fire, in firing
order.  `statusChanged` is `_notify_status_change`, `wentOnline` is
`_notify_online`, `wentOffline` is `_notify_offline`.  The `data`
payload passed to the callbacks is omitted; the claims are about which
callbacks fire, for which username, in which order. -/
inductive WEvent where
  | statusChanged (username : String) (is_online : Bool)
  | wentOnline (username : String)
  | wentOffline (username : String)
deriving Repr, DecidableEq

/-- The username a watcher event is about. -/
def WEvent.user : WEvent → String
  | .statusChanged u _ => u
  | .wentOnline u => u
  | .wentOffline u => u

/-- The events of a cycle that concern one username. -/
def eventsFor (u : String) (evs : List WEvent) : List WEvent :=
  evs.filter (fun e => e.user == u)

/-- The events of a cycle that are edge transitions (`onOnline` /
`onOffline`), excluding the generic status-changed callback. -/
def edgeEvents (evs : List WEvent) : List WEvent :=
  evs.filter (fun e => match e with
    | .statusChanged _ _ => false
    | _ => true)

/-- The `for username, data in firebase_accounts.items()` loop of
`FirebaseWatcher._check_and_notify`, threading the loop state:
`prev` is `self._previous_states` (mutated in the first-observation
branch), `current` is `current_states`, `events` the callbacks fired so
far.  Returns `(current_states, events)`. -/
def check_loop (now : Int) : List (String × Option RobloxData) →
    List (String × Bool) → List (String × Bool) → List WEvent →
    List (String × Bool) × List WEvent
  | [], _prev, current, events => (current, events)
  | (username, data) :: rest, prev, current, events =>
    let normalized := normalize_username username
    let is_online := is_account_online now data
    let current' := dinsert current normalized is_online
    match dlookup prev normalized with
    | some previous_online =>
      if previous_online != is_online then
        check_loop now rest prev current'
          (events ++ [WEvent.statusChanged normalized is_online,
            if is_online then WEvent.wentOnline normalized
            else WEvent.wentOffline normalized])
      else
        check_loop now rest prev current' events
    | none =>
      check_loop now rest (dinsert prev normalized is_online) current' events

/-- Embedding of `FirebaseWatcher._check_and_notify`: an empty (or absent) fetch
returns early keeping the previous state; otherwise the loop runs and
`self._previous_states` is replaced wholesale by `current_states`.
Returns the new `_previous_states` and the events fired. -/
def check_and_notify (prev : List (String × Bool))
    (firebase_accounts : List (String × Option RobloxData)) (now : Int) :
    List (String × Bool) × List WEvent :=
  if firebase_accounts = [] then (prev, [])
  else check_loop now firebase_accounts prev [] []

/-- Several consecutive poll cycles: each element gives the fetched
collection and the wall-clock time of that cycle.  Returns the final
`_previous_states` and all events in firing order. -/
def run_cycles (prev : List (String × Bool)) :
    List (List (String × Option RobloxData) × Int) →
    List (String × Bool) × List WEvent
  | [] => (prev, [])
  | (accounts, now) :: rest =>
    let step := check_and_notify prev accounts now
    let later := run_cycles step.1 rest
    (later.1, step.2 ++ later.2)

/-- The map `current_states` that one cycle computes: every fetched
entry classified, keyed by normalized username (later duplicates
overwrite). -/
def classify_all (firebase_accounts : List (String × Option RobloxData))
    (now : Int) : List (String × Bool) :=
  firebase_accounts.foldl
    (fun cur p => dinsert cur (normalize_username p.1) (is_account_online now p.2)) []

/-- Embedding of `FirebaseWatcher.get_all_online_accounts`: appends the normalized
username of every fetched entry that classifies online. -/
def get_all_online_accounts : List (String × Option RobloxData) → Int → List String
  | [], _ => []
  | (username, data) :: rest, now =>
    if is_account_online now data then
      normalize_username username :: get_all_online_accounts rest now
    else get_all_online_accounts rest now

/-- Embedding of `FirebaseWatcher.get_all_offline_accounts`: appends the normalized
username of every fetched entry that does not classify online. -/
def get_all_offline_accounts : List (String × Option RobloxData) → Int → List String
  | [], _ => []
  | (username, data) :: rest, now =>
    if is_account_online now data then get_all_offline_accounts rest now
    else normalize_username username :: get_all_offline_accounts rest now

/-- One record of the local `accounts.json` array: the username, the
`active` flag (`none` when the key is absent; `account.get("active",
False)` is `Option.getD false`), and all other fields, passed through
opaquely. -/
structure Account where
  username : String
  active : Option Bool
  rest : List (String × String)
deriving Repr, DecidableEq

/-- The per-record update applied by the loop body of
`AccountSyncManager.sync_status_to_local`. -/
def sync_account (online_accounts offline_accounts : List String)
    (account : Account) : Account :=
  let username := normalize_username account.username
  let current_active := account.active.getD false
  if online_accounts.contains username then
    if current_active then { account with active := some false } else account
  else if offline_accounts.contains username then
    if !current_active then { account with active := some true } else account
  else account

/-- Embedding of `AccountSyncManager.sync_status_to_local`, as a function of the
loaded local array and the remote snapshot both watcher queries see.
An empty local array returns early.  The Python also counts the flips
and skips the save when nothing changed; neither affects the resulting
file contents. -/
def sync_status_to_local (local_accounts : List Account)
    (remote : List (String × Option RobloxData)) (now : Int) : List Account :=
  if local_accounts = [] then local_accounts
  else
    let online_accounts := get_all_online_accounts remote now
    let offline_accounts := get_all_offline_accounts remote now
    local_accounts.map (sync_account online_accounts offline_accounts)

/-- The loop of `AccountSyncManager.get_accounts_needing_autorun`:
keep every local record whose normalized username is not in the online
list. -/
def needing_loop (online_accounts : List String) : List Account → List Account
  | [] => []
  | account :: rest =>
    if online_accounts.contains (normalize_username account.username) then
      needing_loop online_accounts rest
    else account :: needing_loop online_accounts rest

/-- Embedding of `AccountSyncManager.get_accounts_needing_autorun`. -/
def get_accounts_needing_autorun (local_accounts : List Account)
    (remote : List (String × Option RobloxData)) (now : Int) : List Account :=
  if local_accounts = [] then []
  else needing_loop (get_all_online_accounts remote now) local_accounts

/-- Embedding of `AccountSyncManager._build_username_map`: dict comprehension over
`enumerate(accounts)`, so a later index overwrites an earlier one for
the same normalized username. -/
def build_username_map (accounts : List Account) : List (String × Nat) :=
  (accounts.enum).foldl
    (fun m p => dinsert m (normalize_username p.2.username) p.1) []

/-- Embedding of `AccountSyncManager.set_account_active`: update the `active` flag of
the record `_build_username_map` resolves the username to; no-op when
the username is absent. -/
def set_account_active_file (local_accounts : List Account)
    (username : String) (active : Bool) : List Account :=
  let normalized := normalize_username username
  match dlookup (build_username_map local_accounts) normalized with
  | none => local_accounts
  | some idx =>
    (local_accounts.enum).map
      (fun p => if p.1 = idx then { p.2 with active := some active } else p.2)

/-- A `DispatchItem` as built by `_on_account_offline`. -/
structure Item where
  username : String
  data : Option RobloxData
  queued_at : String
deriving Repr, DecidableEq

/-- One iteration of `AutorunController._process_queue` on a dequeued
item: re-check `_can_run_account`; if admitted, `_mark_running`, set the
local record inactive via `mark_account_running`, invoke the run
callback with any exception caught and logged (`Except.error`), then
`_mark_finished` stamping the completion time `now_finish`.  Returns the
controller state and the local accounts file. -/
def process_item (st : ControllerState) (file : List Account) (item : Item)
    (cb : String → Option RobloxData → Except String Unit)
    (now_check now_finish : Int) : ControllerState × List Account :=
  if !can_run_account st item.username now_check then (st, file)
  else
    let st' := mark_running st item.username
    let file' := set_account_active_file file item.username false
    let _result := cb item.username item.data
    (mark_finished st' item.username now_finish, file')

/-- The progress of one concurrent `sync_status_to_local` call in the
interleaving model: `pc = 0` before `_load_local_accounts`, `pc = 1`
after the load (holding the loaded copy), `pc = 2` after
`_save_local_accounts`. -/
structure TState where
  pc : Nat
  loaded : List Account
deriving Repr, DecidableEq

/-- One atomic step of a sync thread.  `_file_lock` is taken inside
`_load_local_accounts` and inside `_save_local_accounts` separately, so
the load and the save are each atomic, but the lock is NOT held between
them: other threads may run in between.  `up` is the pure update the
call computes from its loaded copy (the loop body of
`sync_status_to_local` with the remote snapshot of that call). -/
def threadStep (up : List Account → List Account) (file : List Account)
    (t : TState) : List Account × TState :=
  if t.pc = 0 then (file, { pc := 1, loaded := file })
  else if t.pc = 1 then (up t.loaded, { t with pc := 2 })
  else (file, t)

/-- Run two concurrent sync calls under a schedule: `true` steps thread
A, `false` steps thread B.  Returns the final flag-file contents. -/
def runSched (upA upB : List Account → List Account) :
    List Bool → List Account → TState → TState → List Account
  | [], file, _, _ => file
  | b :: rest, file, ta, tb =>
    if b then
      let s := threadStep upA file ta
      runSched upA upB rest s.1 s.2 tb
    else
      let s := threadStep upB file tb
      runSched upA upB rest s.1 ta s.2

/-- Two concurrent `sync_status_to_local` calls, with the remote
snapshots (and times) observed by the watcher queries of each call, from given
initial flag-file contents, under a schedule. -/
def runSyncSched (remoteA remoteB : List (String × Option RobloxData))
    (nowA nowB : Int) (sched : List Bool) (file : List Account) : List Account :=
  runSched (fun f => sync_status_to_local f remoteA nowA)
    (fun f => sync_status_to_local f remoteB nowB) sched file ⟨0, []⟩ ⟨0, []⟩

/-! ### Helper lemmas -/

theorem dlookup_dinsert_self {β : Type} (m : List (String × β)) (k : String)
    (v : β) : dlookup (dinsert m k v) k = some v := by
  induction m with
  | nil => simp [dinsert, dlookup]
  | cons p rest ih =>
    by_cases h : p.1 = k
    · simp [dinsert, h, dlookup]
    · simp [dinsert, h, dlookup, ih]

theorem dlookup_dinsert_ne {β : Type} (m : List (String × β)) (k k' : String)
    (v : β) (h : k' ≠ k) : dlookup (dinsert m k v) k' = dlookup m k' := by
  have hne : k ≠ k' := fun hh => h hh.symm
  induction m with
  | nil => simp [dinsert, dlookup, hne]
  | cons p rest ih =>
    by_cases hp : p.1 = k
    · subst hp
      simp [dinsert, dlookup, hne]
    · simp [dinsert, hp, dlookup, ih]

theorem contains_filter_ne (l : List String) (n : String) :
    (l.filter (fun x => x != n)).contains n = false := by
  simp [List.contains, List.elem_eq_mem, List.mem_filter]

theorem not_mem_filter_ne (l : List String) (n : String) :
    n ∉ l.filter (fun x => x != n) := by
  simp [List.mem_filter]

theorem mem_add_self (l : List String) (n : String) :
    n ∈ (if l.contains n then l else l ++ [n]) := by
  split
  next h => simpa using h
  next h => simp

/-! ### Claim C1 -/

/-- Claim C1: `_can_run_account` returns false exactly when the
normalized username is currently in the running set or the elapsed time
since its last recorded completion is strictly less than the 60-second
cooldown; concretely, after a completion stamped at time `T` the
username is rejected at `T + 59` and admitted at `T + 61`, and a
username in the running set is always rejected. -/
theorem C1_canAdmit_gate :
    (∀ (st : ControllerState) (u : String) (now : Int),
      can_run_account st u now = false ↔
        (st.running.contains (normalize_username u) = true ∨
         now - (dlookup st.last_run (normalize_username u)).getD 0 < RUN_COOLDOWN)) ∧
    (∀ (st : ControllerState) (u : String) (T : Int),
      can_run_account (mark_finished st u T) u (T + RUN_COOLDOWN - 1) = false) ∧
    (∀ (st : ControllerState) (u : String) (T : Int),
      can_run_account (mark_finished st u T) u (T + RUN_COOLDOWN + 1) = true) ∧
    (∀ (st : ControllerState) (u : String) (now : Int),
      can_run_account (mark_running st u) u now = false) := by
  refine ⟨?_, ?_, ?_, ?_⟩
  · intro st u now
    by_cases h1 : normalize_username u ∈ st.running
    · simp [can_run_account, h1]
    · by_cases h2 :
        now - (dlookup st.last_run (normalize_username u)).getD 0 < RUN_COOLDOWN
      · simp [can_run_account, h1, h2]
      · simp [can_run_account, h1, h2]
  · intro st u T
    have h1 : normalize_username u ∉ (mark_finished st u T).running := by
      simp only [mark_finished]
      exact not_mem_filter_ne _ _
    have h2 : dlookup (mark_finished st u T).last_run (normalize_username u) = some T := by
      simp only [mark_finished]
      exact dlookup_dinsert_self _ _ _
    have h3 : T + RUN_COOLDOWN - 1 - T < RUN_COOLDOWN := by
      simp only [RUN_COOLDOWN]; omega
    simp [can_run_account, h1, h2, h3]
  · intro st u T
    have h1 : normalize_username u ∉ (mark_finished st u T).running := by
      simp only [mark_finished]
      exact not_mem_filter_ne _ _
    have h2 : dlookup (mark_finished st u T).last_run (normalize_username u) = some T := by
      simp only [mark_finished]
      exact dlookup_dinsert_self _ _ _
    have h3 : ¬ (T + RUN_COOLDOWN + 1 - T < RUN_COOLDOWN) := by
      simp only [RUN_COOLDOWN]; omega
    simp [can_run_account, h1, h2, h3]
  · intro st u now
    have h1 : normalize_username u ∈ (mark_running st u).running := by
      simp only [mark_running]
      exact mem_add_self _ _
    simp [can_run_account, h1]

/-! ### Claim C2 -/

/-- Evaluation of `_is_account_online` on an existing record, flattened to one boolean
expression. -/
theorem is_account_online_some (now : Int) (r : RobloxData) :
    is_account_online now (some r) =
      ((r.inGame.getD false || (str_lower (r.status.getD "") == "online")) &&
       (!(r.timestamp.getD 0 == 0)) &&
       decide (now - r.timestamp.getD 0 ≤ HEARTBEAT_TIMEOUT)) := by
  simp only [is_account_online]
  by_cases hb2 : str_lower (r.status.getD "") = "online"
  · rcases hb1 : r.inGame.getD false <;>
      rcases hbt : (r.timestamp.getD 0 == 0) <;> simp [hb1, hb2, hbt]
  · rcases hb1 : r.inGame.getD false <;>
      rcases hbt : (r.timestamp.getD 0 == 0) <;> simp [hb1, hb2, hbt]

/-- The record `{roblox: {inGame: false, status: "ONLINE", timestamp:
1000}}` observed at `now = 1000`: the code lowercases the status before
comparing, the plain equality of the claim with `"online"` does not. -/
def c2_record : Option RobloxData :=
  some { inGame := some false, status := some "ONLINE", timestamp := some 1000 }

/-- Claim C2, counterexample: at `now = 1000` the code classifies
`c2_record` as online (it lowercases the stored status string before
comparing it with `"online"`), while the condition of the claim — the status
string equals `"online"`, the in-game flag is false — fails for the
stored string `"ONLINE"`, so the claimed equivalence is false at this
record. -/
theorem C2_counterexample :
    is_account_online 1000 c2_record = true ∧
    spec_claimed_online 1000 c2_record = false := by
  constructor <;> decide

/-- Claim C2 (amended): `_is_account_online` returns true iff the record
exists with status data, the in-game flag is true or the lowercased
status string equals `"online"`, and the heartbeat timestamp is present,
nonzero, and no older than 120 seconds relative to `now`. -/
theorem C2_isOnline_characterization (now : Int) (account : Option RobloxData) :
    is_account_online now account = true ↔
      ∃ r, account = some r ∧
        (r.inGame.getD false = true ∨ str_lower (r.status.getD "") = "online") ∧
        ∃ t, r.timestamp = some t ∧ t ≠ 0 ∧ now - t ≤ HEARTBEAT_TIMEOUT := by
  cases account with
  | none => simp [is_account_online]
  | some r =>
    rw [is_account_online_some]
    cases hts : r.timestamp with
    | none => simp [hts]
    | some t =>
      simp [hts, Bool.and_eq_true, Bool.or_eq_true, beq_iff_eq,
        decide_eq_true_eq, and_assoc]

/-! ### Claim C8 -/

/-- Claim C8: when the worker loop admits a dequeued item and the run
callback raises (`Except.error`), the exception is caught at the
dispatch boundary — `process_item` is a total function, the loop
iteration completes — and exactly as on normal completion the entity is
removed from the running set and its cooldown is stamped with the
completion time. -/
theorem C8_callback_failure_releases (st : ControllerState) (file : List Account)
    (item : Item) (cb : String → Option RobloxData → Except String Unit)
    (now_check now_finish : Int) (e : String)
    (hcanrun : can_run_account st item.username now_check = true)
    (_hthrows : cb item.username item.data = Except.error e) :
    normalize_username item.username ∉
      ((process_item st file item cb now_check now_finish).1).running ∧
    dlookup ((process_item st file item cb now_check now_finish).1).last_run
      (normalize_username item.username) = some now_finish := by
  have hstep : (process_item st file item cb now_check now_finish).1 =
      mark_finished (mark_running st item.username) item.username now_finish := by
    simp [process_item, hcanrun]
  rw [hstep]
  constructor
  · simp only [mark_finished]
    exact not_mem_filter_ne _ _
  · simp only [mark_finished]
    exact dlookup_dinsert_self _ _ _

/-- A run callback that always raises. -/
def c8_failing_cb : String → Option RobloxData → Except String Unit :=
  fun _ _ => Except.error "boom"

/-- Witness for C8: a concrete admitted item whose callback raises. -/
theorem C8_witness :
    can_run_account ⟨[], []⟩ "Alice" 100 = true ∧
    c8_failing_cb "Alice" none = Except.error "boom" ∧
    (normalize_username "Alice" ∉
      ((process_item ⟨[], []⟩ [] ⟨"Alice", none, "t0"⟩ c8_failing_cb 100 105).1).running ∧
     dlookup ((process_item ⟨[], []⟩ [] ⟨"Alice", none, "t0"⟩ c8_failing_cb 100 105).1).last_run
      (normalize_username "Alice") = some 105) :=
  ⟨by decide, rfl,
    C8_callback_failure_releases ⟨[], []⟩ [] ⟨"Alice", none, "t0"⟩ c8_failing_cb
      100 105 "boom" (by decide) rfl⟩

/-! ### Claim C6 -/

/-- Claim C6: `sync_status_to_local` updates asymmetrically, record by
record: username and all other fields always pass through unchanged;
classified online with the flag set → flag cleared; classified online
with the flag clear → record unchanged; classified offline (and not
online) with the flag clear → flag set; classified offline with the flag
set → record unchanged; absent from both classifications (in particular
absent from the remote store) → record unchanged. -/
theorem C6_reconcile_asymmetry (file : List Account)
    (remote : List (String × Option RobloxData)) (now : Int)
    (online offline result : _)
    (hon : online = get_all_online_accounts remote now)
    (hoff : offline = get_all_offline_accounts remote now)
    (hres : result = sync_status_to_local file remote now) :
    result.length = file.length ∧
    ∀ (i : Nat) (hi : i < file.length) (hr : i < result.length),
      ((result.get ⟨i, hr⟩).username = (file.get ⟨i, hi⟩).username) ∧
      ((result.get ⟨i, hr⟩).rest = (file.get ⟨i, hi⟩).rest) ∧
      (normalize_username (file.get ⟨i, hi⟩).username ∈ online →
        (file.get ⟨i, hi⟩).active.getD false = true →
        result.get ⟨i, hr⟩ = { file.get ⟨i, hi⟩ with active := some false }) ∧
      (normalize_username (file.get ⟨i, hi⟩).username ∈ online →
        (file.get ⟨i, hi⟩).active.getD false = false →
        result.get ⟨i, hr⟩ = file.get ⟨i, hi⟩) ∧
      (normalize_username (file.get ⟨i, hi⟩).username ∉ online →
        normalize_username (file.get ⟨i, hi⟩).username ∈ offline →
        (file.get ⟨i, hi⟩).active.getD false = false →
        result.get ⟨i, hr⟩ = { file.get ⟨i, hi⟩ with active := some true }) ∧
      (normalize_username (file.get ⟨i, hi⟩).username ∉ online →
        normalize_username (file.get ⟨i, hi⟩).username ∈ offline →
        (file.get ⟨i, hi⟩).active.getD false = true →
        result.get ⟨i, hr⟩ = file.get ⟨i, hi⟩) ∧
      (normalize_username (file.get ⟨i, hi⟩).username ∉ online →
        normalize_username (file.get ⟨i, hi⟩).username ∉ offline →
        result.get ⟨i, hr⟩ = file.get ⟨i, hi⟩) := by
  subst hon hoff hres
  constructor
  · simp only [sync_status_to_local]
    split
    · rfl
    · simp
  · intro i hi hr
    have hf : file ≠ [] := by
      intro h
      subst h
      simp at hi
    have hb : (sync_status_to_local file remote now).get ⟨i, hr⟩ =
        sync_account (get_all_online_accounts remote now)
          (get_all_offline_accounts remote now) (file.get ⟨i, hi⟩) := by
      simp [sync_status_to_local, hf, List.get_eq_getElem]
    rw [hb]
    set a := file.get ⟨i, hi⟩ with ha
    refine ⟨?_, ?_, ?_, ?_, ?_, ?_, ?_⟩
    · by_cases h1 : normalize_username a.username ∈ get_all_online_accounts remote now <;>
      by_cases h2 : normalize_username a.username ∈ get_all_offline_accounts remote now <;>
      by_cases h3 : a.active.getD false = true <;>
        simp_all [sync_account]
    · by_cases h1 : normalize_username a.username ∈ get_all_online_accounts remote now <;>
      by_cases h2 : normalize_username a.username ∈ get_all_offline_accounts remote now <;>
      by_cases h3 : a.active.getD false = true <;>
        simp_all [sync_account]
    · intro h1 h3
      simp [sync_account, h1, h3]
    · intro h1 h3
      simp [sync_account, h1, h3]
    · intro h1 h2 h3
      simp [sync_account, h1, h2, h3]
    · intro h1 h2 h3
      simp [sync_account, h1, h2, h3]
    · intro h1 h2
      simp [sync_account, h1, h2]

/-- A local flag file with alice (flag set, an extra pass-through field)
and carol (flag set, absent from the remote store). -/
def c6_file : List Account :=
  [⟨"alice", some true, [("note", "x")]⟩, ⟨"carol", some true, []⟩]

/-- A remote snapshot in which only alice appears, online. -/
def c6_remote : List (String × Option RobloxData) :=
  [("alice", some ⟨some true, some "online", some 990⟩)]

/-- Witness for C6 at a concrete reconciliation: alice, online with the
flag set, gets it cleared with her other field untouched; carol, absent
from the remote store, is untouched. -/
theorem C6_witness :
    sync_status_to_local c6_file c6_remote 1000 =
      [⟨"alice", some false, [("note", "x")]⟩, ⟨"carol", some true, []⟩] ∧
    (sync_status_to_local c6_file c6_remote 1000).length = c6_file.length :=
  ⟨by decide, (C6_reconcile_asymmetry c6_file c6_remote 1000 _ _ _ rfl rfl rfl).1⟩

/-! ### Claim C7 -/

/-- The loop of `get_accounts_needing_autorun` is a filter on the
not-online condition. -/
theorem needing_loop_eq_filter (online : List String) (l : List Account) :
    needing_loop online l =
      l.filter (fun a => !(online.contains (normalize_username a.username))) := by
  induction l with
  | nil => rfl
  | cons a rest ih =>
    by_cases h : normalize_username a.username ∈ online <;>
      simp [needing_loop, h, ih]

/-- The local flag file of the C7 scenario (initial flags all clear). -/
def c7_file : List Account := [⟨"alice", some false, []⟩, ⟨"bob", some false, []⟩]

/-- The remote snapshot of the C7 scenario at `now = 1000`:
alice `{inGame: true, status: "online", timestamp: now - 10}`,
bob `{inGame: false, status: "offline", timestamp: now - 200}`. -/
def c7_remote : List (String × Option RobloxData) :=
  [("alice", some ⟨some true, some "online", some 990⟩),
   ("bob", some ⟨some false, some "offline", some 800⟩)]

/-- Claim C7: `get_accounts_needing_autorun` returns exactly the local
records whose normalized username is not classified online; in the
concrete scenario, one reconciliation pass yields `alice.active = false`
and `bob.active = true`, and the query then returns exactly the
record of bob. -/
theorem C7_accounts_needing_restart :
    (∀ (file : List Account) (remote : List (String × Option RobloxData)) (now : Int),
      get_accounts_needing_autorun file remote now =
        file.filter (fun a =>
          !((get_all_online_accounts remote now).contains
            (normalize_username a.username)))) ∧
    sync_status_to_local c7_file c7_remote 1000 =
      [⟨"alice", some false, []⟩, ⟨"bob", some true, []⟩] ∧
    get_accounts_needing_autorun
        (sync_status_to_local c7_file c7_remote 1000) c7_remote 1000 =
      [⟨"bob", some true, []⟩] := by
  refine ⟨?_, by decide, by decide⟩
  intro file remote now
  by_cases hf : file = []
  · subst hf
    rfl
  · simp only [get_accounts_needing_autorun, if_neg hf]
    exact needing_loop_eq_filter _ _

/-! ### Claim C9 -/

/-- The remote snapshot of the C9 counterexample: two raw keys, `"Alice"`
and `"alice "`, that normalize to the same username, both offline. -/
def c9_remote : List (String × Option RobloxData) :=
  [("Alice", some ⟨some false, some "offline", some 1000⟩),
   ("alice ", some ⟨some false, some "offline", some 1000⟩)]

/-- Claim C9, counterexample: `get_all_offline_accounts` returns a LIST
with one entry per fetched record, so when two remote keys normalize to
the same username the normalized username appears twice — not at most
once as the claim states. -/
theorem C9_counterexample :
    (get_all_offline_accounts c9_remote 1000).count "alice" = 2 ∧
    ¬ ((get_all_offline_accounts c9_remote 1000).count "alice" ≤ 1) := by
  constructor <;> decide

/-- The offline list is a sublist of the normalized key list of the
fetch. -/
theorem get_all_offline_sublist (remote : List (String × Option RobloxData))
    (now : Int) :
    (get_all_offline_accounts remote now).Sublist
      (remote.map (fun p => normalize_username p.1)) := by
  induction remote with
  | nil => simp [get_all_offline_accounts]
  | cons p rest ih =>
    rcases p with ⟨u, d⟩
    by_cases h : is_account_online now d = true <;>
      simp [get_all_offline_accounts, h]
    · exact ih.cons _
    · exact ih

/-- The online list is a sublist of the normalized key list of the
fetch. -/
theorem get_all_online_sublist (remote : List (String × Option RobloxData))
    (now : Int) :
    (get_all_online_accounts remote now).Sublist
      (remote.map (fun p => normalize_username p.1)) := by
  induction remote with
  | nil => simp [get_all_online_accounts]
  | cons p rest ih =>
    rcases p with ⟨u, d⟩
    by_cases h : is_account_online now d = true <;>
      simp [get_all_online_accounts, h]
    · exact ih
    · exact ih.cons _

/-- Claim C9 (amended): `get_all_offline_accounts` and
`get_all_online_accounts` return one normalized username per fetched
record; whenever the keys of the fetch are pairwise distinct after
normalization, each normalized username appears at most once in either
result. -/
theorem C9_no_duplicates_when_keys_distinct
    (remote : List (String × Option RobloxData)) (now : Int)
    (h : (remote.map (fun p => normalize_username p.1)).Nodup) :
    (get_all_offline_accounts remote now).Nodup ∧
    (get_all_online_accounts remote now).Nodup :=
  ⟨h.sublist (get_all_offline_sublist remote now),
   h.sublist (get_all_online_sublist remote now)⟩

/-- Witness for C9 (amended) on a snapshot whose keys already normalize
apart. -/
theorem C9_witness :
    (([("Alice", some ⟨some false, some "offline", some 1000⟩),
       ("Bob", some ⟨some true, some "online", some 995⟩)] :
        List (String × Option RobloxData)).map
          (fun p => normalize_username p.1)).Nodup ∧
    (get_all_offline_accounts
      [("Alice", some ⟨some false, some "offline", some 1000⟩),
       ("Bob", some ⟨some true, some "online", some 995⟩)] 1000).Nodup :=
  ⟨by decide,
   (C9_no_duplicates_when_keys_distinct
      [("Alice", some ⟨some false, some "offline", some 1000⟩),
       ("Bob", some ⟨some true, some "online", some 995⟩)] 1000 (by decide)).1⟩

/-! ### Claims C4, C5, C10: edge-triggering in the watcher -/

/-- A remote record that classifies online at `now = 1000`. -/
def online_data : Option RobloxData := some ⟨some true, some "online", some 1000⟩

/-- A remote record that classifies offline at `now = 1000`. -/
def offline_data : Option RobloxData := some ⟨some false, some "offline", some 1000⟩

/-- The five C4 poll cycles for alice: classifications
[online, online, offline, offline, online]. -/
def c4_cycles : List (List (String × Option RobloxData) × Int) :=
  [([("alice", online_data)], 1000),
   ([("alice", online_data)], 1000),
   ([("alice", offline_data)], 1000),
   ([("alice", offline_data)], 1000),
   ([("alice", online_data)], 1000)]

/-- Claim C4, counterexample: over the five-cycle scenario the code
fires, on each flip, the generic status-changed callback FIRST and the
online/offline callback second (`_check_and_notify` calls
`_notify_status_change` before `_notify_online`/`_notify_offline`),
so the claimed per-flip order — edge callback followed by the generic
callback — does not hold. -/
theorem C4_counterexample :
    (run_cycles [] c4_cycles).2 =
      [WEvent.statusChanged "alice" false, WEvent.wentOffline "alice",
       WEvent.statusChanged "alice" true, WEvent.wentOnline "alice"] ∧
    (run_cycles [] c4_cycles).2 ≠
      [WEvent.wentOffline "alice", WEvent.statusChanged "alice" false,
       WEvent.wentOnline "alice", WEvent.statusChanged "alice" true] := by
  constructor <;> decide

/-- Claim C4 (amended): callbacks are edge-triggered — over the
[online, online, offline, offline, online] scenario exactly two
transition callbacks fire, offline then online, and nothing fires on an
unchanged cycle — but on each flip the generic status-changed callback
fires first, followed by the online/offline callback.  The last two
conjuncts state the general single-record cycle: a flip fires exactly
the pair (status-changed, edge) in that order, an unchanged
classification fires nothing. -/
theorem C4_edge_triggering (prev : List (String × Bool)) (u : String)
    (d : Option RobloxData) (now : Int) (b : Bool)
    (hseen : dlookup prev (normalize_username u) = some b) :
    edgeEvents (run_cycles [] c4_cycles).2 =
      [WEvent.wentOffline "alice", WEvent.wentOnline "alice"] ∧
    (run_cycles [] c4_cycles).2 =
      [WEvent.statusChanged "alice" false, WEvent.wentOffline "alice",
       WEvent.statusChanged "alice" true, WEvent.wentOnline "alice"] ∧
    (b ≠ is_account_online now d →
      (check_and_notify prev [(u, d)] now).2 =
        [WEvent.statusChanged (normalize_username u) (is_account_online now d),
         if is_account_online now d then WEvent.wentOnline (normalize_username u)
         else WEvent.wentOffline (normalize_username u)]) ∧
    (b = is_account_online now d →
      (check_and_notify prev [(u, d)] now).2 = []) := by
  refine ⟨by decide, by decide, ?_, ?_⟩
  · intro hflip
    have hb : (b != is_account_online now d) = true := by
      simp [bne_iff_ne, hflip]
    simp [check_and_notify, check_loop, hseen, hb]
  · intro hsame
    have hb : (b != is_account_online now d) = false := by
      simp [hsame]
    simp [check_and_notify, check_loop, hseen, hb]

/-- Witness for C4 (amended): alice previously online, now offline. -/
theorem C4_witness :
    dlookup [("alice", true)] (normalize_username "alice") = some true ∧
    (true ≠ is_account_online 1000 offline_data →
      (check_and_notify [("alice", true)] [("alice", offline_data)] 1000).2 =
        [WEvent.statusChanged (normalize_username "alice")
          (is_account_online 1000 offline_data),
         if is_account_online 1000 offline_data then
           WEvent.wentOnline (normalize_username "alice")
         else WEvent.wentOffline (normalize_username "alice")]) :=
  ⟨by decide,
   (C4_edge_triggering [("alice", true)] "alice" offline_data 1000 true
     (by decide)).2.2.1⟩

/-- Events appended for a username other than `u` do not change the
events concerning `u`. -/
theorem eventsFor_append_other (u n : String) (hn : n ≠ u) (evs : List WEvent)
    (b : Bool) :
    eventsFor u (evs ++ [WEvent.statusChanged n b,
      if b then WEvent.wentOnline n else WEvent.wentOffline n]) =
      eventsFor u evs := by
  have h1 : ((WEvent.statusChanged n b).user == u) = false := by
    simp [WEvent.user, hn]
  have h2 : (((if b then WEvent.wentOnline n else WEvent.wentOffline n) : WEvent).user == u)
      = false := by
    cases b <;> simp [WEvent.user, hn]
  simp [eventsFor, List.filter_append, h1, h2]

/-- If `u` does not occur (normalized) among the remaining fetched
entries, the loop adds no event concerning `u`. -/
theorem eventsFor_check_loop_absent (now : Int) (u : String) :
    ∀ (accounts : List (String × Option RobloxData))
      (prev current : List (String × Bool)) (events : List WEvent),
      (∀ p ∈ accounts, normalize_username p.1 ≠ u) →
      eventsFor u (check_loop now accounts prev current events).2 =
        eventsFor u events
  | [], _, _, _ => fun _ => rfl
  | (username, data) :: rest, prev, current, events => by
    intro h
    have hn : normalize_username username ≠ u := h _ (List.mem_cons_self _ _)
    have hrest : ∀ q ∈ rest, normalize_username q.1 ≠ u :=
      fun q hq => h q (List.mem_cons_of_mem _ hq)
    simp only [check_loop]
    cases hl : dlookup prev (normalize_username username) with
    | some b =>
      by_cases hb : (b != is_account_online now data) = true
      · simp only [hb, if_true]
        rw [eventsFor_check_loop_absent now u rest _ _ _ hrest,
          eventsFor_append_other u _ hn]
      · simp only [hb, if_false]
        exact eventsFor_check_loop_absent now u rest _ _ _ hrest
    | none =>
      exact eventsFor_check_loop_absent now u rest _ _ _ hrest

/-- If `u` is unseen in `prev` and occurs (normalized) at most once in
the remaining fetched entries, the loop adds no event concerning `u`. -/
theorem eventsFor_check_loop_unseen (now : Int) (u : String) :
    ∀ (accounts : List (String × Option RobloxData))
      (prev current : List (String × Bool)) (events : List WEvent),
      dlookup prev u = none →
      (accounts.filter (fun p => normalize_username p.1 == u)).length ≤ 1 →
      eventsFor u (check_loop now accounts prev current events).2 =
        eventsFor u events
  | [], _, _, _ => by
    intro _ _
    rfl
  | (username, data) :: rest, prev, current, events => by
    intro hunseen honce
    by_cases hn : normalize_username username = u
    · have hl : dlookup prev (normalize_username username) = none := by
        rw [hn]; exact hunseen
      have hrest : ∀ q ∈ rest, normalize_username q.1 ≠ u := by
        intro q hq hqu
        have : 2 ≤ ((((username, data) :: rest).filter
            (fun p => normalize_username p.1 == u)).length) := by
          simp only [List.filter]
          have hcons : (normalize_username (username, data).1 == u) = true := by
            simp [hn]
          rw [hcons]
          have : q ∈ rest.filter (fun p => normalize_username p.1 == u) := by
            rw [List.mem_filter]
            exact ⟨hq, by simp [hqu]⟩
          have := List.length_pos_of_mem this
          simp only [List.length_cons]
          omega
        omega
      simp only [check_loop, hl]
      exact eventsFor_check_loop_absent now u rest _ _ _ hrest
    · have honce' : (rest.filter (fun p => normalize_username p.1 == u)).length ≤ 1 := by
        have : (((username, data) :: rest).filter
            (fun p => normalize_username p.1 == u)).length =
            (rest.filter (fun p => normalize_username p.1 == u)).length := by
          simp only [List.filter]
          have hcons : (normalize_username (username, data).1 == u) = false := by
            simp [hn]
          rw [hcons]
        omega
      simp only [check_loop]
      cases hl : dlookup prev (normalize_username username) with
      | some b =>
        by_cases hb : (b != is_account_online now data) = true
        · simp only [hb, if_true]
          rw [eventsFor_check_loop_unseen now u rest _ _ _ hunseen honce',
            eventsFor_append_other u _ hn]
        · simp only [hb, if_false]
          exact eventsFor_check_loop_unseen now u rest _ _ _ hunseen honce'
      | none =>
        have hunseen' : dlookup (dinsert prev (normalize_username username)
            (is_account_online now data)) u = none := by
          rw [dlookup_dinsert_ne _ _ _ _ (fun hh => hn hh.symm)]
          exact hunseen
        exact eventsFor_check_loop_unseen now u rest _ _ _ hunseen' honce'

/-- Claim C5: the very first classification of a previously-unseen
username fires no callback at all in that cycle: if the normalized
username is not in the previous-state map and occurs at most once in the
fetch (one remote record per account), the cycle emits no event for it,
whatever its classification. -/
theorem C5_no_first_observation_edge (prev : List (String × Bool))
    (accounts : List (String × Option RobloxData)) (now : Int) (u : String)
    (hunseen : dlookup prev (normalize_username u) = none)
    (honce : (accounts.filter
      (fun p => normalize_username p.1 == normalize_username u)).length ≤ 1) :
    eventsFor (normalize_username u) (check_and_notify prev accounts now).2 = [] := by
  by_cases h : accounts = []
  · subst h
    rfl
  · simp only [check_and_notify, if_neg h]
    exact eventsFor_check_loop_unseen now (normalize_username u) accounts
      prev [] [] hunseen honce

/-- Witness for C5: bob, never seen before, appears offline for the
first time and no callback fires. -/
theorem C5_witness :
    dlookup [("alice", true)] (normalize_username "Bob") = none ∧
    ([("alice", online_data), ("Bob", offline_data)].filter
      (fun p => normalize_username p.1 == normalize_username "Bob")).length ≤ 1 ∧
    eventsFor (normalize_username "Bob")
      (check_and_notify [("alice", true)]
        [("alice", online_data), ("Bob", offline_data)] 1000).2 = [] :=
  ⟨by decide, by decide,
   C5_no_first_observation_edge [("alice", true)]
     [("alice", online_data), ("Bob", offline_data)] 1000 "Bob"
     (by decide) (by decide)⟩


/-- The `current_states` map the loop builds is the left fold of
classifications over the fetch, independent of the previous state and
of the events fired. -/
theorem check_loop_current (now : Int) :
    ∀ (accounts : List (String × Option RobloxData))
      (prev current : List (String × Bool)) (events : List WEvent),
      (check_loop now accounts prev current events).1 =
        accounts.foldl (fun cur p =>
          dinsert cur (normalize_username p.1) (is_account_online now p.2)) current
  | [], _, _, _ => rfl
  | (username, data) :: rest, prev, current, events => by
    simp only [check_loop, List.foldl]
    cases dlookup prev (normalize_username username) with
    | some b =>
      by_cases hb : (b != is_account_online now data) = true
      · simp only [hb, if_true]
        exact check_loop_current now rest _ _ _
      · simp only [hb, if_false]
        exact check_loop_current now rest _ _ _
    | none =>
      exact check_loop_current now rest _ _ _

/-- The three C10 poll cycles: alice and bob are both fetched in cycle
one (alice online), alice is absent from the non-empty fetch of cycle two,
and alice reappears offline in cycle three. -/
def c10_cycles : List (List (String × Option RobloxData) × Int) :=
  [([("alice", online_data), ("bob", offline_data)], 1000),
   ([("bob", offline_data)], 1000),
   ([("alice", offline_data)], 1000)]

/-- Claim C10: after a cycle with a non-empty fetch the previous-state
map is exactly the classifications of the fetched usernames (so a
username absent from a non-empty fetch loses its tracked state); in the
concrete scenario alice is tracked online after cycle one, dropped after
cycle two, and her offline reappearance in cycle three is a first
observation that fires no callback. -/
theorem C10_state_replacement (prev : List (String × Bool))
    (accounts : List (String × Option RobloxData)) (now : Int)
    (hne : accounts ≠ []) :
    (check_and_notify prev accounts now).1 = classify_all accounts now ∧
    (run_cycles [] (c10_cycles.take 1)).1 = [("alice", true), ("bob", false)] ∧
    (run_cycles [] (c10_cycles.take 2)).1 = [("bob", false)] ∧
    (run_cycles [] c10_cycles).1 = [("alice", false)] ∧
    (run_cycles [] c10_cycles).2 = [] := by
  refine ⟨?_, by decide, by decide, by decide, by decide⟩
  simp only [check_and_notify, if_neg hne, classify_all]
  exact check_loop_current now accounts prev [] []

/-- Witness for C10 on a concrete non-empty fetch and a stale previous
state. -/
theorem C10_witness :
    ([("alice", online_data)] : List (String × Option RobloxData)) ≠ [] ∧
    (check_and_notify [("zoe", true)] [("alice", online_data)] 1000).1 =
      classify_all [("alice", online_data)] 1000 :=
  ⟨by decide,
   (C10_state_replacement [("zoe", true)] [("alice", online_data)] 1000
     (by decide)).1⟩


/-! ### Claim C3: locking of the flag file -/

/-- The function `sync_account` never changes the username of a record. -/
theorem sync_account_username (online offline : List String) (a : Account) :
    (sync_account online offline a).username = a.username := by
  simp only [sync_account]
  split
  · split <;> rfl
  · split
    · split <;> rfl
    · rfl

/-- Mapping `sync_account` over a file preserves the username column. -/
theorem map_username_map_sync (online offline : List String) :
    ∀ (l : List Account),
      (l.map (sync_account online offline)).map Account.username =
        l.map Account.username
  | [] => rfl
  | a :: rest => by
    simp only [List.map]
    rw [sync_account_username, map_username_map_sync online offline rest]

/-- The function `sync_status_to_local` preserves the username column of the file. -/
theorem sync_preserves_usernames (file : List Account)
    (remote : List (String × Option RobloxData)) (now : Int) :
    (sync_status_to_local file remote now).map Account.username =
      file.map Account.username := by
  by_cases hf : file = []
  · subst hf
    rfl
  · simp only [sync_status_to_local, if_neg hf]
    exact map_username_map_sync _ _ file

/-- Any interleaving of two whole-file read-modify-write threads whose
updates preserve the username column leaves the username column of the
file unchanged, provided the loaded copy of each thread (when it has one)
also carries the same username column. -/
theorem runSched_preserves_usernames
    (upA upB : List Account → List Account)
    (hA : ∀ f, (upA f).map Account.username = f.map Account.username)
    (hB : ∀ f, (upB f).map Account.username = f.map Account.username) :
    ∀ (sched : List Bool) (file : List Account) (ta tb : TState),
      (ta.pc = 1 → ta.loaded.map Account.username = file.map Account.username) →
      (tb.pc = 1 → tb.loaded.map Account.username = file.map Account.username) →
      (runSched upA upB sched file ta tb).map Account.username =
        file.map Account.username
  | [], file, ta, tb => fun _ _ => rfl
  | true :: rest, file, ta, tb => by
    intro hta htb
    have hred : runSched upA upB (true :: rest) file ta tb =
        runSched upA upB rest (threadStep upA file ta).1 (threadStep upA file ta).2 tb := rfl
    by_cases hpc0 : ta.pc = 0
    · have h1 : (threadStep upA file ta).1 = file := by simp [threadStep, hpc0]
      have h2 : (threadStep upA file ta).2 = { pc := 1, loaded := file } := by
        simp [threadStep, hpc0]
      rw [hred, h1, h2]
      exact runSched_preserves_usernames upA upB hA hB rest file _ tb
        (fun _ => rfl) htb
    · by_cases hpc1 : ta.pc = 1
      · have h1 : (threadStep upA file ta).1 = upA ta.loaded := by
          simp [threadStep, hpc0, hpc1]
        have h2 : (threadStep upA file ta).2 = { ta with pc := 2 } := by
          simp [threadStep, hpc0, hpc1]
        have hfile : (upA ta.loaded).map Account.username =
            file.map Account.username := by
          rw [hA, hta hpc1]
        have hrec := runSched_preserves_usernames upA upB hA hB rest
          (upA ta.loaded) { ta with pc := 2 } tb
          (fun h => by simp at h)
          (fun h => (htb h).trans hfile.symm)
        rw [hred, h1, h2, hrec, hfile]
      · have h1 : (threadStep upA file ta).1 = file := by
          simp [threadStep, hpc0, hpc1]
        have h2 : (threadStep upA file ta).2 = ta := by
          simp [threadStep, hpc0, hpc1]
        rw [hred, h1, h2]
        exact runSched_preserves_usernames upA upB hA hB rest file ta tb hta htb
  | false :: rest, file, ta, tb => by
    intro hta htb
    have hred : runSched upA upB (false :: rest) file ta tb =
        runSched upA upB rest (threadStep upB file tb).1 ta (threadStep upB file tb).2 := rfl
    by_cases hpc0 : tb.pc = 0
    · have h1 : (threadStep upB file tb).1 = file := by simp [threadStep, hpc0]
      have h2 : (threadStep upB file tb).2 = { pc := 1, loaded := file } := by
        simp [threadStep, hpc0]
      rw [hred, h1, h2]
      exact runSched_preserves_usernames upA upB hA hB rest file ta _
        hta (fun _ => rfl)
    · by_cases hpc1 : tb.pc = 1
      · have h1 : (threadStep upB file tb).1 = upB tb.loaded := by
          simp [threadStep, hpc0, hpc1]
        have h2 : (threadStep upB file tb).2 = { tb with pc := 2 } := by
          simp [threadStep, hpc0, hpc1]
        have hfile : (upB tb.loaded).map Account.username =
            file.map Account.username := by
          rw [hB, htb hpc1]
        have hrec := runSched_preserves_usernames upA upB hA hB rest
          (upB tb.loaded) ta { tb with pc := 2 }
          (fun h => (hta h).trans hfile.symm)
          (fun h => by simp at h)
        rw [hred, h1, h2, hrec, hfile]
      · have h1 : (threadStep upB file tb).1 = file := by
          simp [threadStep, hpc0, hpc1]
        have h2 : (threadStep upB file tb).2 = tb := by
          simp [threadStep, hpc0, hpc1]
        rw [hred, h1, h2]
        exact runSched_preserves_usernames upA upB hA hB rest file ta tb hta htb


/-- Remote view of the first concurrent reconciliation call: alice
online, bob offline. -/
def c3_remoteA : List (String × Option RobloxData) :=
  [("alice", online_data), ("bob", offline_data)]

/-- Remote view of the second concurrent reconciliation call (the remote
store changed between the fetches of the two calls): alice offline, bob
absent. -/
def c3_remoteB : List (String × Option RobloxData) :=
  [("alice", offline_data)]

/-- Initial flag file for the C3 scenario. -/
def c3_file : List Account :=
  [⟨"alice", some false, []⟩, ⟨"bob", some false, []⟩]

/-- Claim C3, counterexample: `_file_lock` is held only inside
`_load_local_accounts` and inside `_save_local_accounts`, not across the
whole read-modify-write of `sync_status_to_local`.  Under the
interleaving load-A, load-B, save-A, save-B the update of the first call
(the flag of bob set to true) is overwritten by the save of the second
call, which
was computed from the stale pre-A file: the final file differs from both
serial executions, so an update IS lost — contradicting the claim that
the whole sequence runs under one lock and no update is lost. -/
theorem C3_counterexample :
    (sync_status_to_local c3_file c3_remoteA 1000 =
      [⟨"alice", some false, []⟩, ⟨"bob", some true, []⟩]) ∧
    runSyncSched c3_remoteA c3_remoteB 1000 1000 [true, false, true, false] c3_file =
      [⟨"alice", some true, []⟩, ⟨"bob", some false, []⟩] ∧
    runSyncSched c3_remoteA c3_remoteB 1000 1000 [true, false, true, false] c3_file ≠
      sync_status_to_local (sync_status_to_local c3_file c3_remoteA 1000)
        c3_remoteB 1000 ∧
    runSyncSched c3_remoteA c3_remoteB 1000 1000 [true, false, true, false] c3_file ≠
      sync_status_to_local (sync_status_to_local c3_file c3_remoteB 1000)
        c3_remoteA 1000 := by
  refine ⟨by decide, by decide, by decide, by decide⟩

/-- Claim C3 (amended): the lock makes each whole-file load and each
whole-file save individually atomic but is not held across the
read-modify-write, so concurrent reconciliation calls can lose updates;
still, every interleaving of two `sync_status_to_local` calls writes
whole arrays derived from a loaded copy of the file, so the
username column of the file is exactly preserved — after both calls complete the
flag file contains exactly one entry per username whenever the initial
file did. -/
theorem C3_no_duplication_under_interleaving
    (remoteA remoteB : List (String × Option RobloxData)) (nowA nowB : Int)
    (sched : List Bool) (file : List Account)
    (hnodup : (file.map Account.username).Nodup) :
    (runSyncSched remoteA remoteB nowA nowB sched file).map Account.username =
      file.map Account.username ∧
    ((runSyncSched remoteA remoteB nowA nowB sched file).map Account.username).Nodup := by
  have hmain :
      (runSyncSched remoteA remoteB nowA nowB sched file).map Account.username =
        file.map Account.username := by
    apply runSched_preserves_usernames
    · intro f
      exact sync_preserves_usernames f remoteA nowA
    · intro f
      exact sync_preserves_usernames f remoteB nowB
    · intro h
      simp at h
    · intro h
      simp at h
  exact ⟨hmain, hmain ▸ hnodup⟩

/-- Witness for C3 (amended) at the concrete lost-update interleaving:
the username column survives unchanged and duplicate-free. -/
theorem C3_witness :
    ((c3_file.map Account.username).Nodup) ∧
    (runSyncSched c3_remoteA c3_remoteB 1000 1000 [true, false, true, false]
        c3_file).map Account.username = c3_file.map Account.username :=
  ⟨by decide,
   (C3_no_duplication_under_interleaving c3_remoteA c3_remoteB 1000 1000
     [true, false, true, false] c3_file (by decide)).1⟩

end Autorun
